/-
Verification of the LexAI rpc_worker backend against its specification.

The Rust sources under src/backend/rpc_worker/src are shallowly embedded:
pure functions become Lean functions, machine floats (f32/f64) are modelled
by exact rationals (ℚ), machine integers by ℤ/ℕ, fallible code by Except,
and calls to external services (ONNX inference, the tokenizers crate's
backend, the qdrant client transport, serde parsing) become explicit
function parameters of the embedded code.
-/
import Mathlib

set_option autoImplicit false

/-! ### Chunker (src/backend/rpc_worker/src/document.rs) -/

def CHUNK_SIZE : Nat := 1000

def CHUNK_OVERLAP : Nat := 200

/-- The `while start < len` loop body of `split_into_chunks`
(document.rs lines 45-59).  `chars[start..end]` is `(chars.drop start).take (e - start)`;
`end.saturating_sub(CHUNK_OVERLAP)` needs no saturation guard here because in the
recursive branch `e = start + CHUNK_SIZE > CHUNK_OVERLAP`, but we keep the
`CHUNK_OVERLAP >= CHUNK_SIZE` degenerate-advance branch of the source. -/
def chunkLoop (chars : List Char) (start : Nat) : List (List Char) :=
  if h : start < chars.length then
    let e := min (start + CHUNK_SIZE) chars.length
    let chunk := (chars.drop start).take (e - start)
    if he : e = chars.length then
      [chunk]
    else
      chunk :: chunkLoop chars (if CHUNK_OVERLAP ≥ CHUNK_SIZE then e else e - CHUNK_OVERLAP)
  else
    []
termination_by chars.length - start
decreasing_by
  unfold e at he
  simp only [CHUNK_SIZE, CHUNK_OVERLAP, ge_iff_le] at *
  rw [dif_neg (by omega)]
  omega

/-- `split_into_chunks` (document.rs lines 35-62), on the sequence of code
points of the input text. -/
def split_into_chunks (text : List Char) : List (List Char) :=
  if text.isEmpty then [] else chunkLoop text 0

/-- Number of chunks the loop produces from `m` remaining characters. -/
def chunkCount (m : Nat) : Nat :=
  if m = 0 then 0
  else if m ≤ CHUNK_SIZE then 1
  else chunkCount (m - (CHUNK_SIZE - CHUNK_OVERLAP)) + 1
termination_by m
decreasing_by
  simp only [CHUNK_SIZE, CHUNK_OVERLAP] at *
  omega

/-! ### Embedding engine (src/backend/rpc_worker/src/embeddings.rs)

f32 arithmetic is modelled by exact rationals.  Token-level model outputs
(the external ONNX inference result) are an explicit function parameter. -/

/-- The `1e-12` norm floor of `EmbeddingService::normalize`. -/
def EPS : ℚ := 1 / 10 ^ 12

/-- Sum of squares of a vector: the square of its Euclidean norm. -/
def sumSq (v : List ℚ) : ℚ := (v.map (fun x => x * x)).sum

/-- `EmbeddingService::mean_pool` (embeddings.rs lines 91-122).
`embeddings row j` is entry `j` of flattened row `row` of the `(batch*seq, hidden)`
matrix; `attention` is the flat attention-mask slice.  The inner token loop,
its `continue` on a zero mask entry, the running `sum`/`count`, and the
denominator floored at 1 are transcribed directly. -/
def mean_pool (batch_len seq_len hidden : Nat) (embeddings : Nat → Nat → ℚ)
    (attention : Nat → ℤ) : List (List ℚ) :=
  (List.range batch_len).map (fun batch_idx =>
    let start := batch_idx * seq_len
    let p := (List.range seq_len).foldl
      (fun acc token_idx =>
        if attention (batch_idx * seq_len + token_idx) = 0 then acc
        else
          (acc.1.zipWith (fun a v => a + v)
              ((List.range hidden).map (fun j => embeddings (start + token_idx) j)),
            acc.2 + 1))
      (List.replicate hidden (0 : ℚ), (0 : ℚ))
    let denom := if p.2 > 0 then p.2 else 1
    p.1.map (fun v => v / denom))

/-- `EmbeddingService::normalize` (embeddings.rs lines 124-132) on one vector.
The source computes `norm = sumSq(v).sqrt().max(1e-12)` and divides; sqrt has
no exact rational counterpart, so the norm is passed as the argument `s`,
constrained in the theorems below by `0 ≤ s` and `s * s = sumSq v` (the exact
nonnegative square root). -/
def normalize₁ (s : ℚ) (v : List ℚ) : List ℚ := v.map (fun x => x / max s EPS)

/-! ### Tokenizer service (src/backend/rpc_worker/src/tokenizer.rs)

File loading and the tokenizers crate's backend are external: the loaded
artifacts are explicit parameters.  `BackendTokenizer.tokenize` is modelled
from the tokenizers crate: it returns the raw token-id sequence of one text,
to which `encode` applies the configured fixed-length right-padding and
right-truncation. -/

structure TokenizerConfig where
  model_max_length : Option Nat
  pad_token : String
deriving DecidableEq

structure BackendTokenizer where
  token_to_id : String → Option Nat
  tokenize : String → List Nat

structure TokenizerService where
  tokenizer : BackendTokenizer
  config : TokenizerConfig

structure EncodedBatch where
  input_ids : List ℤ
  attention_mask : List ℤ
  batch_len : Nat
  sequence_length : Nat
deriving DecidableEq

/-- `TokenizerService::new` (tokenizer.rs lines 37-54): load the tokenizer
file and parse the config file (both fallible, modelled as `Except` inputs)
and pair them up.  Note: it does not consult the vocabulary. -/
def TokenizerService.new (tokenizerLoad : Except String BackendTokenizer)
    (configLoad : Except String TokenizerConfig) : Except String TokenizerService := do
  let tokenizer ← tokenizerLoad
  let config ← configLoad
  pure { tokenizer := tokenizer, config := config }

/-- One row of `encode_batch` output under `PaddingStrategy::Fixed(max_length)`
(right padding) and truncation to `max_length` keeping the earliest tokens:
ids right-padded with `pad_id`, attention mask 1 on real tokens and 0 on
padding, both of length exactly `max_length`. -/
def encodeRow (max_length : Nat) (pad_id : Nat) (ids : List Nat) : List ℤ × List ℤ :=
  let t := ids.take max_length
  (List.map (fun id : Nat => (id : ℤ)) (t ++ List.replicate (max_length - t.length) pad_id),
    List.replicate t.length (1 : ℤ) ++ List.replicate (max_length - t.length) (0 : ℤ))

/-- `TokenizerService::encode` (tokenizer.rs lines 68-126): reject an empty
batch, resolve the pad token id (first possible failure after the emptiness
check), apply fixed padding/truncation to `model_max_length` (default 512),
and flatten ids and attention masks batch-major. -/
def TokenizerService.encode (svc : TokenizerService) (texts : List String) :
    Except String EncodedBatch :=
  if texts.isEmpty then Except.error "no texts provided for encoding"
  else
    match svc.tokenizer.token_to_id svc.config.pad_token with
    | none => Except.error "pad token missing from tokenizer"
    | some pad_id =>
      let max_length := svc.config.model_max_length.getD 512
      let encodings := texts.map (fun t => encodeRow max_length pad_id (svc.tokenizer.tokenize t))
      Except.ok
        { input_ids := (encodings.map (fun e => e.1)).flatten
          attention_mask := (encodings.map (fun e => e.2)).flatten
          batch_len := encodings.length
          sequence_length := max_length }

/-! ### JSON values and qdrant payload conversion (src/backend/rpc_worker/src/qdrant.rs)

`JsonVal` embeds the serde_json value model; objects are association lists.
`JNumber.int` is a number for which `as_i64` succeeds, `JNumber.float` a
finite double (`as_i64` fails, `as_f64` succeeds), `JNumber.big` a number
representable as neither (arbitrary-precision form). -/

inductive JNumber where
  | int (i : ℤ)
  | float (q : ℚ)
  | big
deriving DecidableEq

inductive JsonVal where
  | null
  | bool (b : Bool)
  | num (n : JNumber)
  | str (s : String)
  | arr (items : List JsonVal)
  | obj (fields : List (String × JsonVal))

def JsonVal.isObj : JsonVal → Bool
  | .obj _ => true
  | _ => false

/- `noBig v`: `v` mentions no arbitrary-precision number. -/
mutual
def noBig : JsonVal → Bool
  | .null => true
  | .bool _ => true
  | .num n => match n with | .big => false | _ => true
  | .str _ => true
  | .arr items => noBigList items
  | .obj fields => noBigFields fields
def noBigList : List JsonVal → Bool
  | [] => true
  | v :: rest => noBig v && noBigList rest
def noBigFields : List (String × JsonVal) → Bool
  | [] => true
  | (_, v) :: rest => noBig v && noBigFields rest
end

/- The qdrant client's protobuf `Value` (`kind: Option<Kind>`). -/
mutual
inductive QdrantValue where
  | mk (kind : Option QdrantKind)
inductive QdrantKind where
  | nullValue (v : ℤ)
  | boolValue (b : Bool)
  | integerValue (i : ℤ)
  | doubleValue (d : ℚ)
  | stringValue (s : String)
  | listValue (values : List QdrantValue)
  | structValue (fields : List (String × QdrantValue))
end

/- `json_to_qdrant_value` (qdrant.rs lines 161-192); the recursion over
`Vec`/`Map` entries is split into the two list workers below, as in the
source's `collect::<Result<_>>()` calls. -/
mutual
def json_to_qdrant_value : JsonVal → Except String QdrantValue
  | .null => .ok (.mk (some (.nullValue 0)))
  | .bool b => .ok (.mk (some (.boolValue b)))
  | .num (.int i) => .ok (.mk (some (.integerValue i)))
  | .num (.float q) => .ok (.mk (some (.doubleValue q)))
  | .num .big => .error "unsupported number value"
  | .str s => .ok (.mk (some (.stringValue s)))
  | .arr items => do
      let values ← json_list_to_qdrant items
      .ok (.mk (some (.listValue values)))
  | .obj fields => do
      let fs ← json_fields_to_qdrant fields
      .ok (.mk (some (.structValue fs)))
def json_list_to_qdrant : List JsonVal → Except String (List QdrantValue)
  | [] => .ok []
  | v :: rest => do
      let q ← json_to_qdrant_value v
      let qs ← json_list_to_qdrant rest
      .ok (q :: qs)
def json_fields_to_qdrant : List (String × JsonVal) → Except String (List (String × QdrantValue))
  | [] => .ok []
  | (k, v) :: rest => do
      let q ← json_to_qdrant_value v
      let qs ← json_fields_to_qdrant rest
      .ok ((k, q) :: qs)
end

/- `qdrant_value_to_json` (qdrant.rs lines 125-146) and
`qdrant_payload_to_value` (lines 117-123).  A missing `kind` is read as
`NullValue` (`unwrap_or`); `serde_json::Number::from_f64` is total here
because every `ℚ` is finite (the source maps a non-finite double to `Null`
rather than an error). -/
mutual
def qdrant_value_to_json : QdrantValue → Except String JsonVal
  | .mk none => .ok .null
  | .mk (some (.nullValue _)) => .ok .null
  | .mk (some (.boolValue b)) => .ok (.bool b)
  | .mk (some (.integerValue i)) => .ok (.num (.int i))
  | .mk (some (.doubleValue d)) => .ok (.num (.float d))
  | .mk (some (.stringValue s)) => .ok (.str s)
  | .mk (some (.listValue values)) => do
      let items ← qdrant_list_to_json values
      .ok (.arr items)
  | .mk (some (.structValue fields)) =>
      match qdrant_payload_to_value fields with
      | .ok v => .ok v
      | .error e => .error ("failed to convert struct payload: " ++ e)
def qdrant_list_to_json : List QdrantValue → Except String (List JsonVal)
  | [] => .ok []
  | v :: rest => do
      let j ← qdrant_value_to_json v
      let js ← qdrant_list_to_json rest
      .ok (j :: js)
def qdrant_payload_to_value : List (String × QdrantValue) → Except String JsonVal
  | fields => do
      let fs ← qdrant_fields_to_json fields
      .ok (.obj fs)
def qdrant_fields_to_json : List (String × QdrantValue) → Except String (List (String × JsonVal))
  | [] => .ok []
  | (k, v) :: rest => do
      let j ← qdrant_value_to_json v
      let js ← qdrant_fields_to_json rest
      .ok ((k, j) :: js)
end

/-- `qdrant_payload_from_struct` (qdrant.rs lines 148-159) after the external
serde serialization step: the serialized payload value is the argument. -/
def qdrant_payload_from_struct (json : JsonVal) : Except String (List (String × QdrantValue)) :=
  match json with
  | .obj fields => json_fields_to_qdrant fields
  | _ => .error "payload must be a JSON object"

/-- The result post-processing of `EmbeddedQdrant::search` (qdrant.rs lines
84-91): each returned point's payload is converted with
`qdrant_payload_to_value` and a conversion failure is replaced by JSON
`null` (`unwrap_or(Value::Null)`). -/
def search_results (points : List (List (String × QdrantValue))) : List JsonVal :=
  points.map (fun payload =>
    match qdrant_payload_to_value payload with
    | .ok v => v
    | .error _ => .null)

/-! ### JSON-RPC transport loop (src/backend/rpc_worker/src/jsonrpc.rs)

serde parsing/deserialization and the two pipeline handlers are external
effects, passed as function parameters. -/

structure JsonRpcRequest where
  jsonrpc : String
  method : String
  params : Option JsonVal
  id : Option JsonVal

structure JsonRpcError where
  code : ℤ
  message : String
  data : Option JsonVal

structure JsonRpcResponse where
  jsonrpc : String
  result : Option JsonVal
  error : Option JsonRpcError
  id : JsonVal

/-- `JsonRpcResponse::error` (jsonrpc.rs lines 256-267); named `mkError`
because the structure's `error` field projection takes the source name. -/
def JsonRpcResponse.mkError (id : JsonVal) (code : ℤ) (message : String) : JsonRpcResponse :=
  { jsonrpc := "2.0", result := none,
    error := some { code := code, message := message, data := none }, id := id }

/-- `JsonRpcResponse::result` (jsonrpc.rs lines 269-276). -/
def JsonRpcResponse.mkResult (id : JsonVal) (value : JsonVal) : JsonRpcResponse :=
  { jsonrpc := "2.0", result := some value, error := none, id := id }

structure UploadDocumentParams where
  document_id : Option String
  file_path : String

structure SearchParams where
  query : String
  document_id : Option String
  limit : Option Nat

/-- `JsonRpcLoop::dispatch` (jsonrpc.rs lines 79-113).  `deserUpload` and
`deserSearch` are serde's `from_value` for the two param schemas; the
handlers return `Except` as the source handlers return `Result`, and a
handler error propagates out of `dispatch` (the source's `?`). -/
def dispatch (deserUpload : JsonVal → Option UploadDocumentParams)
    (deserSearch : JsonVal → Option SearchParams)
    (handleUpload : UploadDocumentParams → Except String JsonVal)
    (handleSearch : SearchParams → Except String JsonVal)
    (request : JsonRpcRequest) : Except String JsonRpcResponse :=
  let id := request.id.getD JsonVal.null
  if request.jsonrpc ≠ "2.0" then
    Except.ok (JsonRpcResponse.mkError id (-32600) "Invalid JSON-RPC version")
  else
    match request.method with
    | "ping" =>
        Except.ok (JsonRpcResponse.mkResult id (JsonVal.obj [("status", JsonVal.str "ok")]))
    | "upload_document" =>
        match deserUpload (request.params.getD JsonVal.null) with
        | some args => (handleUpload args).map (fun v => JsonRpcResponse.mkResult id v)
        | none => Except.ok (JsonRpcResponse.mkError id (-32602) "Invalid params")
    | "search_document" =>
        match deserSearch (request.params.getD JsonVal.null) with
        | some args => (handleSearch args).map (fun v => JsonRpcResponse.mkResult id v)
        | none => Except.ok (JsonRpcResponse.mkError id (-32602) "Invalid params")
    | _ => Except.ok (JsonRpcResponse.mkError id (-32601) "Method not found")

/-- `JsonRpcLoop::handle_line` (jsonrpc.rs lines 59-77).  `parseRequest` is
serde's `from_str` on one input line. -/
def handle_line (parseRequest : String → Except String JsonRpcRequest)
    (deserUpload : JsonVal → Option UploadDocumentParams)
    (deserSearch : JsonVal → Option SearchParams)
    (handleUpload : UploadDocumentParams → Except String JsonVal)
    (handleSearch : SearchParams → Except String JsonVal)
    (line : String) : JsonRpcResponse :=
  match parseRequest line with
  | .error err => JsonRpcResponse.mkError JsonVal.null (-32700) err
  | .ok request =>
    let id := request.id.getD JsonVal.null
    match dispatch deserUpload deserSearch handleUpload handleSearch request with
    | .ok response => response
    | .error err => JsonRpcResponse.mkError id (-32603) err

/-- Calls `handle_search_document` makes to its collaborators, in order. -/
inductive WorkerCall where
  | embed (texts : List String)
  | vectorSearch (limit : Nat) (filtered : Bool)
deriving DecidableEq

/-- `JsonRpcLoop::handle_search_document` (jsonrpc.rs lines 156-183),
instrumented with the ordered list of collaborator calls it performs.
`embedFn` is `EmbeddingEngine::embed`; `searchFn vector limit filtered` is
`EmbeddedQdrant::search` (the filter is built from `document_id` exactly
when it is present). -/
def handle_search_document (embedFn : List String → Except String (List (List ℚ)))
    (searchFn : List ℚ → Nat → Bool → Except String (List JsonVal))
    (params : SearchParams) : Except String JsonVal × List WorkerCall :=
  if params.query.isEmpty then
    (Except.error "query text cannot be empty", [])
  else
    match embedFn [params.query] with
    | .error e => (Except.error ("failed to embed query: " ++ e), [.embed [params.query]])
    | .ok vecs =>
      match vecs.head? with
      | none => (Except.error "missing query embedding", [.embed [params.query]])
      | some query_vec =>
        let limit := params.limit.getD 5
        let filtered := params.document_id.isSome
        match searchFn query_vec limit filtered with
        | .error e =>
            (Except.error e, [.embed [params.query], .vectorSearch limit filtered])
        | .ok results =>
            (Except.ok (JsonVal.obj [("results", JsonVal.arr results)]),
              [.embed [params.query], .vectorSearch limit filtered])

/-! ### Theorems -/

/-- C1: the RPC loop's response to one input line follows the dispatch state
machine: a parse failure yields code -32700 with id null; a parsed request
with `jsonrpc ≠ "2.0"` yields -32600 (before method lookup: no constraint on
the method); a well-versioned request with an unknown method yields -32601;
a known method with non-deserializing params yields -32602; a handler
failure yields -32603; the response id always echoes the request id (null
when absent or unparseable) and exactly one of result/error is present. -/
theorem rpc_handle_line_dispatch
    (parseRequest : String → Except String JsonRpcRequest)
    (dU : JsonVal → Option UploadDocumentParams)
    (dS : JsonVal → Option SearchParams)
    (hU : UploadDocumentParams → Except String JsonVal)
    (hS : SearchParams → Except String JsonVal)
    (line : String) :
    (∀ e, parseRequest line = .error e →
      handle_line parseRequest dU dS hU hS line =
        JsonRpcResponse.mkError JsonVal.null (-32700) e) ∧
    (∀ req, parseRequest line = .ok req →
      (req.jsonrpc ≠ "2.0" →
        handle_line parseRequest dU dS hU hS line =
          JsonRpcResponse.mkError (req.id.getD JsonVal.null) (-32600)
            "Invalid JSON-RPC version") ∧
      (req.jsonrpc = "2.0" → req.method ≠ "ping" → req.method ≠ "upload_document" →
        req.method ≠ "search_document" →
        handle_line parseRequest dU dS hU hS line =
          JsonRpcResponse.mkError (req.id.getD JsonVal.null) (-32601) "Method not found") ∧
      (req.jsonrpc = "2.0" → req.method = "upload_document" →
        dU (req.params.getD JsonVal.null) = none →
        handle_line parseRequest dU dS hU hS line =
          JsonRpcResponse.mkError (req.id.getD JsonVal.null) (-32602) "Invalid params") ∧
      (req.jsonrpc = "2.0" → req.method = "search_document" →
        dS (req.params.getD JsonVal.null) = none →
        handle_line parseRequest dU dS hU hS line =
          JsonRpcResponse.mkError (req.id.getD JsonVal.null) (-32602) "Invalid params") ∧
      (∀ args e, req.jsonrpc = "2.0" → req.method = "upload_document" →
        dU (req.params.getD JsonVal.null) = some args → hU args = .error e →
        handle_line parseRequest dU dS hU hS line =
          JsonRpcResponse.mkError (req.id.getD JsonVal.null) (-32603) e) ∧
      (∀ args e, req.jsonrpc = "2.0" → req.method = "search_document" →
        dS (req.params.getD JsonVal.null) = some args → hS args = .error e →
        handle_line parseRequest dU dS hU hS line =
          JsonRpcResponse.mkError (req.id.getD JsonVal.null) (-32603) e)) ∧
    ((handle_line parseRequest dU dS hU hS line).id =
      match parseRequest line with
      | .ok req => req.id.getD JsonVal.null
      | .error _ => JsonVal.null) ∧
    ((handle_line parseRequest dU dS hU hS line).result.isSome ↔
      (handle_line parseRequest dU dS hU hS line).error.isNone) := by
  refine ⟨?_, ?_, ?_, ?_⟩
  · intro e he
    simp [handle_line, he]
  · intro req hreq
    refine ⟨?_, ?_, ?_, ?_, ?_, ?_⟩
    · intro hver
      simp [handle_line, hreq, dispatch, hver]
    · intro hver h1 h2 h3
      simp only [handle_line, hreq, dispatch, hver, ne_eq, not_true_eq_false, if_false]
    · intro hver hm hd
      simp only [handle_line, hreq, dispatch, hver, ne_eq, not_true_eq_false, if_false, hm]
      simp [hd]
    · intro hver hm hd
      simp only [handle_line, hreq, dispatch, hver, ne_eq, not_true_eq_false, if_false, hm]
      simp [hd]
    · intro args e hver hm hd hh
      simp only [handle_line, hreq, dispatch, hver, ne_eq, not_true_eq_false, if_false, hm]
      simp [hd, hh, Except.map]
    · intro args e hver hm hd hh
      simp only [handle_line, hreq, dispatch, hver, ne_eq, not_true_eq_false, if_false, hm]
      simp [hd, hh, Except.map]
  · cases hp : parseRequest line with
    | error e => simp [handle_line, hp, JsonRpcResponse.mkError]
    | ok req =>
      simp only [handle_line, hp]
      cases hd : dispatch dU dS hU hS req with
      | error e => simp [JsonRpcResponse.mkError]
      | ok resp =>
        revert hd
        unfold dispatch
        split
        · intro hd
          cases hd
          simp [JsonRpcResponse.mkError]
        · split <;> intro hd
          · cases hd; simp [JsonRpcResponse.mkResult]
          · revert hd
            split <;> intro hd
            · cases h : hU _ with
              | ok v => rw [h] at hd; cases hd; simp [JsonRpcResponse.mkResult, Except.map]
              | error e => rw [h] at hd; simp [Except.map] at hd
            · cases hd; simp [JsonRpcResponse.mkError]
          · revert hd
            split <;> intro hd
            · cases h : hS _ with
              | ok v => rw [h] at hd; cases hd; simp [JsonRpcResponse.mkResult, Except.map]
              | error e => rw [h] at hd; simp [Except.map] at hd
            · cases hd; simp [JsonRpcResponse.mkError]
          · cases hd; simp [JsonRpcResponse.mkError]
  · cases hp : parseRequest line with
    | error e => simp [handle_line, hp, JsonRpcResponse.mkError]
    | ok req =>
      simp only [handle_line, hp]
      cases hd : dispatch dU dS hU hS req with
      | error e => simp [JsonRpcResponse.mkError]
      | ok resp =>
        revert hd
        unfold dispatch
        split
        · intro hd
          cases hd
          simp [JsonRpcResponse.mkError]
        · split <;> intro hd
          · cases hd; simp [JsonRpcResponse.mkResult]
          · revert hd
            split <;> intro hd
            · cases h : hU _ with
              | ok v => rw [h] at hd; cases hd; simp [JsonRpcResponse.mkResult, Except.map]
              | error e => rw [h] at hd; simp [Except.map] at hd
            · cases hd; simp [JsonRpcResponse.mkError]
          · revert hd
            split <;> intro hd
            · cases h : hS _ with
              | ok v => rw [h] at hd; cases hd; simp [JsonRpcResponse.mkResult, Except.map]
              | error e => rw [h] at hd; simp [Except.map] at hd
            · cases hd; simp [JsonRpcResponse.mkError]
          · cases hd; simp [JsonRpcResponse.mkError]

/-- Witness for C1 at concrete inputs: a parse failure, a version mismatch,
an unknown method, and a failing search handler. -/
theorem rpc_handle_line_dispatch_witness :
    handle_line (fun _ => Except.error "bad json") (fun _ => none) (fun _ => none)
        (fun _ => Except.ok JsonVal.null) (fun _ => Except.ok JsonVal.null) "x" =
      JsonRpcResponse.mkError JsonVal.null (-32700) "bad json" ∧
    handle_line
        (fun _ => Except.ok
          { jsonrpc := "1.0", method := "ping", params := none, id := some (JsonVal.str "a") })
        (fun _ => none) (fun _ => none)
        (fun _ => Except.ok JsonVal.null) (fun _ => Except.ok JsonVal.null) "x" =
      JsonRpcResponse.mkError (JsonVal.str "a") (-32600) "Invalid JSON-RPC version" ∧
    handle_line
        (fun _ => Except.ok
          { jsonrpc := "2.0", method := "frobnicate", params := none, id := none })
        (fun _ => none) (fun _ => none)
        (fun _ => Except.ok JsonVal.null) (fun _ => Except.ok JsonVal.null) "x" =
      JsonRpcResponse.mkError JsonVal.null (-32601) "Method not found" ∧
    handle_line
        (fun _ => Except.ok
          { jsonrpc := "2.0", method := "search_document", params := none, id := none })
        (fun _ => none)
        (fun _ => some { query := "", document_id := none, limit := none })
        (fun _ => Except.ok JsonVal.null) (fun _ => Except.error "boom") "x" =
      JsonRpcResponse.mkError JsonVal.null (-32603) "boom" :=
  ⟨(rpc_handle_line_dispatch (fun _ => Except.error "bad json") (fun _ => none) (fun _ => none)
      (fun _ => Except.ok JsonVal.null) (fun _ => Except.ok JsonVal.null) "x").1 "bad json" rfl,
   ((rpc_handle_line_dispatch _ (fun _ => none) (fun _ => none)
      (fun _ => Except.ok JsonVal.null) (fun _ => Except.ok JsonVal.null) "x").2.1
      { jsonrpc := "1.0", method := "ping", params := none, id := some (JsonVal.str "a") }
      rfl).1 (by decide),
   ((rpc_handle_line_dispatch _ (fun _ => none) (fun _ => none)
      (fun _ => Except.ok JsonVal.null) (fun _ => Except.ok JsonVal.null) "x").2.1
      { jsonrpc := "2.0", method := "frobnicate", params := none, id := none }
      rfl).2.1 rfl (by decide) (by decide) (by decide),
   ((rpc_handle_line_dispatch _ (fun _ => none)
      (fun _ => some { query := "", document_id := none, limit := none })
      (fun _ => Except.ok JsonVal.null) (fun _ => Except.error "boom") "x").2.1
      { jsonrpc := "2.0", method := "search_document", params := none, id := none }
      rfl).2.2.2.2.2 { query := "", document_id := none, limit := none } "boom"
      rfl rfl rfl rfl⟩

/-- C9: a `search_document` request with an empty query string is rejected
before any embedding computation or vector-store search (the call trace is
empty), and through the transport loop it surfaces as a JSON-RPC error
response with code -32603 and the handler's message. -/
theorem search_document_empty_query_rejected
    (embedFn : List String → Except String (List (List ℚ)))
    (searchFn : List ℚ → Nat → Bool → Except String (List JsonVal))
    (params : SearchParams) (hq : params.query = "") :
    handle_search_document embedFn searchFn params =
      (Except.error "query text cannot be empty", []) ∧
    (∀ (parseRequest : String → Except String JsonRpcRequest)
        (dU : JsonVal → Option UploadDocumentParams)
        (dS : JsonVal → Option SearchParams)
        (hU : UploadDocumentParams → Except String JsonVal)
        (line : String) (req : JsonRpcRequest),
      parseRequest line = .ok req → req.jsonrpc = "2.0" → req.method = "search_document" →
      dS (req.params.getD JsonVal.null) = some params →
      handle_line parseRequest dU dS hU
          (fun p => (handle_search_document embedFn searchFn p).1) line =
        JsonRpcResponse.mkError (req.id.getD JsonVal.null) (-32603)
          "query text cannot be empty") := by
  have hempty : params.query.isEmpty = true := by
    rw [hq]; rfl
  constructor
  · simp [handle_search_document, hempty]
  · intro parseRequest dU dS hU line req hreq hver hm hd
    simp only [handle_line, hreq, dispatch, hver, ne_eq, not_true_eq_false, if_false, hm]
    simp [hd, handle_search_document, hempty, Except.map]

/-- Witness for C9: concrete empty-query search request. -/
theorem search_document_empty_query_rejected_witness :
    handle_search_document (fun _ => Except.ok [[1, 0]])
        (fun _ _ _ => Except.ok [JsonVal.null])
        { query := "", document_id := none, limit := none } =
      (Except.error "query text cannot be empty", []) ∧
    handle_line
        (fun _ => Except.ok
          { jsonrpc := "2.0", method := "search_document", params := none, id := some (JsonVal.num (JNumber.int 1)) })
        (fun _ => none)
        (fun _ => some { query := "", document_id := none, limit := none })
        (fun _ => Except.ok JsonVal.null)
        (fun p => (handle_search_document (fun _ => Except.ok [[1, 0]])
          (fun _ _ _ => Except.ok [JsonVal.null]) p).1) "y" =
      JsonRpcResponse.mkError (JsonVal.num (JNumber.int 1)) (-32603)
        "query text cannot be empty" :=
  ⟨(search_document_empty_query_rejected (fun _ => Except.ok [[1, 0]])
      (fun _ _ _ => Except.ok [JsonVal.null])
      { query := "", document_id := none, limit := none } rfl).1,
   (search_document_empty_query_rejected (fun _ => Except.ok [[1, 0]])
      (fun _ _ _ => Except.ok [JsonVal.null])
      { query := "", document_id := none, limit := none } rfl).2
      _ (fun _ => none) _ (fun _ => Except.ok JsonVal.null) "y"
      { jsonrpc := "2.0", method := "search_document", params := none, id := some (JsonVal.num (JNumber.int 1)) }
      rfl rfl rfl rfl⟩

/-- Counterexample to C5: with a loaded tokenizer whose vocabulary lacks the
configured pad token, `TokenizerService::new` still succeeds — construction
does not fail; the pad-token lookup is not performed at construction time. -/
theorem tokenizer_new_defers_pad_check_cex :
    TokenizerService.new
        (Except.ok { token_to_id := fun _ => none, tokenize := fun _ => [] })
        (Except.ok { model_max_length := none, pad_token := "<pad>" }) =
      Except.ok
        { tokenizer := { token_to_id := fun _ => none, tokenize := fun _ => [] },
          config := { model_max_length := none, pad_token := "<pad>" } } ∧
    ({ token_to_id := fun _ => none, tokenize := fun _ => [] } : BackendTokenizer).token_to_id
        "<pad>" = none :=
  ⟨rfl, rfl⟩

/-- C5 (amended): the missing-pad-token failure is deferred to `encode`:
for any service whose tokenizer cannot resolve the configured pad token,
`encode` on any non-empty batch fails with the pad-token error. -/
theorem encode_fails_without_pad_token (svc : TokenizerService) (texts : List String)
    (hne : texts ≠ [])
    (hmiss : svc.tokenizer.token_to_id svc.config.pad_token = none) :
    svc.encode texts = Except.error "pad token missing from tokenizer" := by
  have hfalse : texts.isEmpty = false := by
    cases texts with
    | nil => exact absurd rfl hne
    | cons a l => rfl
  simp [TokenizerService.encode, hfalse, hmiss]

/-- Witness for the amended C5 at a concrete service and batch. -/
theorem encode_fails_without_pad_token_witness :
    (["a"] : List String) ≠ [] ∧
    TokenizerService.encode
        { tokenizer := { token_to_id := fun _ => none, tokenize := fun _ => [] },
          config := { model_max_length := none, pad_token := "<pad>" } } ["a"] =
      Except.error "pad token missing from tokenizer" :=
  ⟨by decide,
   encode_fails_without_pad_token
     { tokenizer := { token_to_id := fun _ => none, tokenize := fun _ => [] },
       config := { model_max_length := none, pad_token := "<pad>" } }
     ["a"] (by decide) rfl⟩

/-- Flattening rows of uniform length `k` gives `rows.length * k` elements. -/
theorem flatten_uniform_length {α : Type} (rows : List (List α)) (k : Nat)
    (h : ∀ r ∈ rows, r.length = k) :
    rows.flatten.length = rows.length * k := by
  induction rows with
  | nil => simp
  | cons r rs ih =>
    simp only [List.flatten_cons, List.length_append, List.length_cons,
      h r (List.mem_cons_self r rs), ih (fun r hr => h r (List.mem_cons_of_mem _ hr))]
    ring

/-- In a flattening of rows of uniform length `k`, the window
`[i*k, (i+1)*k)` is exactly row `i`. -/
theorem flatten_uniform_row {α : Type} (rows : List (List α)) (k : Nat)
    (h : ∀ r ∈ rows, r.length = k) (i : Nat) (row : List α)
    (hi : rows[i]? = some row) :
    (rows.flatten.drop (i * k)).take k = row := by
  induction rows generalizing i with
  | nil => simp at hi
  | cons r rs ih =>
    have hr : r.length = k := h r (List.mem_cons_self r rs)
    cases i with
    | zero =>
      simp only [List.getElem?_cons_zero, Option.some.injEq] at hi
      subst hi
      simp only [Nat.zero_mul, List.drop_zero, List.flatten_cons, ← hr]
      exact List.take_left _ _
    | succ i =>
      simp only [List.getElem?_cons_succ] at hi
      have hk : (i + 1) * k = r.length + i * k := by rw [hr]; ring
      rw [List.flatten_cons, hk, List.drop_append]
      exact ih (fun r hr => h r (List.mem_cons_of_mem _ hr)) i hi

/-- Both components of `encodeRow` have length exactly `max_length`. -/
theorem encodeRow_length (max_length pad_id : Nat) (ids : List Nat) :
    (encodeRow max_length pad_id ids).1.length = max_length ∧
    (encodeRow max_length pad_id ids).2.length = max_length := by
  unfold encodeRow
  constructor
  · simp only [List.length_map, List.length_append, List.length_replicate, List.length_take]
    omega
  · simp only [List.length_append, List.length_replicate, List.length_take]
    omega

/-- C8: `encode` fails on an empty batch; on success the batch satisfies the
`EncodedBatch` invariant: `batch_len` is the number of texts,
`sequence_length` is `model_max_length` (default 512), both flat arrays have
length `batch_len * sequence_length`, and the `i`-th row of each array is
exactly the right-truncated, right-padded encoding of the `i`-th text. -/
theorem encode_batch_shape (svc : TokenizerService) (texts : List String) :
    (texts = [] → svc.encode texts = Except.error "no texts provided for encoding") ∧
    (∀ batch, svc.encode texts = Except.ok batch →
      batch.batch_len = texts.length ∧
      batch.sequence_length = svc.config.model_max_length.getD 512 ∧
      batch.input_ids.length = batch.batch_len * batch.sequence_length ∧
      batch.attention_mask.length = batch.batch_len * batch.sequence_length ∧
      (∀ i t pad_id, texts[i]? = some t →
        svc.tokenizer.token_to_id svc.config.pad_token = some pad_id →
        (batch.input_ids.drop (i * batch.sequence_length)).take batch.sequence_length =
          (encodeRow batch.sequence_length pad_id (svc.tokenizer.tokenize t)).1 ∧
        (batch.attention_mask.drop (i * batch.sequence_length)).take batch.sequence_length =
          (encodeRow batch.sequence_length pad_id (svc.tokenizer.tokenize t)).2)) := by
  constructor
  · intro hnil
    subst hnil
    rfl
  · intro batch hok
    cases he : texts.isEmpty with
    | true =>
      rw [TokenizerService.encode, if_pos he] at hok
      cases hok
    | false =>
      cases hpad : svc.tokenizer.token_to_id svc.config.pad_token with
      | none =>
        rw [TokenizerService.encode, if_neg (by simp [he])] at hok
        rw [hpad] at hok
        cases hok
      | some pad_id =>
        rw [TokenizerService.encode, if_neg (by simp [he])] at hok
        rw [hpad] at hok
        simp only [Except.ok.injEq] at hok
        subst hok
        set maxlen := svc.config.model_max_length.getD 512 with hmax
        have hids :
            ∀ r ∈ (texts.map (fun t =>
              encodeRow maxlen pad_id (svc.tokenizer.tokenize t))).map (fun e => e.1),
            r.length = maxlen := by
          intro r hr
          simp only [List.map_map, List.mem_map, Function.comp] at hr
          obtain ⟨t, _, rfl⟩ := hr
          exact (encodeRow_length maxlen pad_id _).1
        have hmask :
            ∀ r ∈ (texts.map (fun t =>
              encodeRow maxlen pad_id (svc.tokenizer.tokenize t))).map (fun e => e.2),
            r.length = maxlen := by
          intro r hr
          simp only [List.map_map, List.mem_map, Function.comp] at hr
          obtain ⟨t, _, rfl⟩ := hr
          exact (encodeRow_length maxlen pad_id _).2
        refine ⟨by simp, rfl, ?_, ?_, ?_⟩
        · simpa using flatten_uniform_length _ maxlen hids
        · simpa using flatten_uniform_length _ maxlen hmask
        · intro i t pad_id' hit hpad'
          have hpe : pad_id' = pad_id := (Option.some.inj hpad').symm
          subst hpe
          constructor
          · exact flatten_uniform_row _ maxlen hids i _
              (by simp [List.getElem?_map, hit])
          · exact flatten_uniform_row _ maxlen hmask i _
              (by simp [List.getElem?_map, hit])

/-- Witness for C8: a concrete service with `model_max_length = 3`, pad id 9,
on the empty batch and on the two-text batch `["ab", "cdef"]`, whose first
text gets padded and second truncated. -/
theorem encode_batch_shape_witness :
    TokenizerService.encode
        { tokenizer :=
            { token_to_id := fun s => if s = "<pad>" then some 9 else none,
              tokenize := fun t => if t = "ab" then [4, 5] else [6, 7, 8, 3] },
          config := { model_max_length := some 3, pad_token := "<pad>" } } [] =
      Except.error "no texts provided for encoding" ∧
    ({ input_ids := [4, 5, 9, 6, 7, 8], attention_mask := [1, 1, 0, 1, 1, 1],
        batch_len := 2, sequence_length := 3 } : EncodedBatch).batch_len =
      (["ab", "cdef"] : List String).length ∧
    ({ input_ids := [4, 5, 9, 6, 7, 8], attention_mask := [1, 1, 0, 1, 1, 1],
        batch_len := 2, sequence_length := 3 } : EncodedBatch).input_ids.length = 2 * 3 ∧
    (([4, 5, 9, 6, 7, 8] : List ℤ).drop (1 * 3)).take 3 = (encodeRow 3 9 [6, 7, 8, 3]).1 :=
  have hok : TokenizerService.encode
      { tokenizer :=
          { token_to_id := fun s => if s = "<pad>" then some 9 else none,
            tokenize := fun t => if t = "ab" then [4, 5] else [6, 7, 8, 3] },
        config := { model_max_length := some 3, pad_token := "<pad>" } } ["ab", "cdef"] =
      Except.ok
        { input_ids := [4, 5, 9, 6, 7, 8], attention_mask := [1, 1, 0, 1, 1, 1],
          batch_len := 2, sequence_length := 3 } := by rfl
  have hmain := (encode_batch_shape
      { tokenizer :=
          { token_to_id := fun s => if s = "<pad>" then some 9 else none,
            tokenize := fun t => if t = "ab" then [4, 5] else [6, 7, 8, 3] },
        config := { model_max_length := some 3, pad_token := "<pad>" } }
      ["ab", "cdef"]).2 _ hok
  ⟨(encode_batch_shape _ []).1 rfl,
   hmain.1,
   hmain.2.2.1,
   (hmain.2.2.2.2 1 "cdef" 9 (by decide) (by decide)).1⟩

/-- Adding a zero vector on the left of pointwise addition is the identity. -/
theorem zipWith_add_replicate_left (n : Nat) (s : List ℚ) (hs : s.length = n) :
    List.zipWith (fun a v => a + v) (List.replicate n (0 : ℚ)) s = s := by
  induction s generalizing n with
  | nil => simp
  | cons x xs ih =>
    cases n with
    | zero => simp at hs
    | succ n =>
      simp only [List.replicate_succ, List.zipWith_cons_cons, zero_add]
      rw [ih n (by simpa using hs)]

/-- Pointwise addition of rational vectors is associative. -/
theorem zipWith_add_assoc (a b c : List ℚ) :
    List.zipWith (fun a v => a + v) (List.zipWith (fun a v => a + v) a b) c =
      List.zipWith (fun a v => a + v) a (List.zipWith (fun a v => a + v) b c) := by
  induction a generalizing b c with
  | nil => simp
  | cons x xs ih =>
    cases b with
    | nil => simp
    | cons y ys =>
      cases c with
      | nil => simp
      | cons z zs =>
        simp only [List.zipWith_cons_cons, add_assoc]
        rw [ih]

/-- A map of pointwise sums splits into a `zipWith` of maps. -/
theorem map_add_eq_zipWith (idx : List Nat) (f g : Nat → ℚ) :
    idx.map (fun j => f j + g j) =
      List.zipWith (fun a v => a + v) (idx.map f) (idx.map g) := by
  induction idx with
  | nil => rfl
  | cons x xs ih => simp only [List.map_cons, List.zipWith_cons_cons, ih]

/-- Adding a zero vector on the right of pointwise addition is the identity. -/
theorem zipWith_add_replicate_right (n : Nat) (s : List ℚ) (hs : s.length = n) :
    List.zipWith (fun a v => a + v) s (List.replicate n (0 : ℚ)) = s := by
  induction s generalizing n with
  | nil => simp
  | cons x xs ih =>
    cases n with
    | zero => simp at hs
    | succ n =>
      simp only [List.replicate_succ, List.zipWith_cons_cons, add_zero]
      rw [ih n (by simpa using hs)]

/-- The inner token fold of `mean_pool`: starting from a length-`hidden`
accumulator, it adds the rows of the unmasked tokens pointwise and counts
them. -/
theorem mean_pool_foldl_spec (hidden : Nat) (g : Nat → Nat → ℚ) (att : Nat → ℤ)
    (base : Nat) (l : List Nat) (s0 : List ℚ) (c0 : ℚ) (hs : s0.length = hidden) :
    (l.foldl (fun acc t =>
        if att (base + t) = 0 then acc
        else (acc.1.zipWith (fun a v => a + v) ((List.range hidden).map (g t)), acc.2 + 1))
      (s0, c0)) =
    (List.zipWith (fun a v => a + v) s0
        ((List.range hidden).map (fun j =>
          ((l.filter (fun t => !(att (base + t) == 0))).map (fun t => g t j)).sum)),
      c0 + ((l.filter (fun t => !(att (base + t) == 0))).length : ℚ)) := by
  induction l generalizing s0 c0 with
  | nil =>
    simp only [List.foldl_nil, List.filter_nil, List.map_nil, List.sum_nil, List.length_nil,
      Nat.cast_zero, add_zero]
    have : (List.range hidden).map (fun _ : Nat => (0 : ℚ)) = List.replicate hidden 0 := by
      simp [List.map_const', List.length_range, List.eq_replicate_iff]
    rw [this, zipWith_add_replicate_right hidden s0 hs]
  | cons t l' ih =>
    by_cases h0 : att (base + t) = 0
    · simp only [List.foldl_cons, if_pos h0, List.filter_cons, h0]
      simp only [beq_self_eq_true, Bool.not_true, if_neg (by simp : ¬ (false = true))]
      exact ih s0 c0 hs
    · simp only [List.foldl_cons, if_neg h0, List.filter_cons]
      have hbeq : (!(att (base + t) == 0)) = true := by
        simp [h0]
      rw [if_pos hbeq]
      have hlen : (List.zipWith (fun a v => a + v) s0
          ((List.range hidden).map (g t))).length = hidden := by
        simp [List.length_zipWith, hs]
      rw [ih _ _ hlen, Prod.mk.injEq]
      constructor
      · rw [zipWith_add_assoc]
        congr 1
        rw [show ((List.range hidden).map (fun j =>
            ((t :: l'.filter (fun t => !(att (base + t) == 0))).map (fun t => g t j)).sum)) =
            (List.range hidden).map (fun j => g t j +
              ((l'.filter (fun t => !(att (base + t) == 0))).map (fun t => g t j)).sum) from ?_]
        · exact (map_add_eq_zipWith _ _ _).symm
        · exact List.map_congr_left (fun j _ => by simp)
      · simp only [List.length_cons]
        push_cast
        ring

/-- Closed form of `mean_pool`: row `b` is the sum of the hidden vectors of
the tokens whose attention entry is nonzero, divided by their count (or by 1
when there are none). -/
theorem mean_pool_spec (batch_len seq_len hidden : Nat) (embeddings : Nat → Nat → ℚ)
    (attention : Nat → ℤ) :
    mean_pool batch_len seq_len hidden embeddings attention =
      (List.range batch_len).map (fun b =>
        (List.range hidden).map (fun j =>
          (((List.range seq_len).filter (fun t => !(attention (b * seq_len + t) == 0))).map
              (fun t => embeddings (b * seq_len + t) j)).sum /
            (if ((List.range seq_len).filter
                (fun t => !(attention (b * seq_len + t) == 0))).length = 0 then 1
              else (((List.range seq_len).filter
                (fun t => !(attention (b * seq_len + t) == 0))).length : ℚ)))) := by
  unfold mean_pool
  refine List.map_congr_left ?_
  intro b hb
  have hfold : (List.range seq_len).foldl
      (fun acc token_idx =>
        if attention (b * seq_len + token_idx) = 0 then acc
        else (acc.1.zipWith (fun a v => a + v)
            ((List.range hidden).map (fun j => embeddings (b * seq_len + token_idx) j)),
          acc.2 + 1))
      (List.replicate hidden (0 : ℚ), (0 : ℚ)) =
      (List.zipWith (fun a v => a + v) (List.replicate hidden (0 : ℚ))
          ((List.range hidden).map (fun j =>
            (((List.range seq_len).filter
              (fun t => !(attention (b * seq_len + t) == 0))).map
                (fun t => embeddings (b * seq_len + t) j)).sum)),
        0 + (((List.range seq_len).filter
          (fun t => !(attention (b * seq_len + t) == 0))).length : ℚ)) :=
    mean_pool_foldl_spec hidden (fun t j => embeddings (b * seq_len + t) j) attention
      (b * seq_len) (List.range seq_len) (List.replicate hidden 0) 0 (by simp)
  simp only [hfold, zero_add]
  have hz := zipWith_add_replicate_left hidden
      ((List.range hidden).map (fun j =>
        (((List.range seq_len).filter (fun t => !(attention (b * seq_len + t) == 0))).map
          (fun t => embeddings (b * seq_len + t) j)).sum)) (by simp)
  rw [hz, List.map_map]
  refine List.map_congr_left ?_
  intro j hj
  simp only [Function.comp]
  congr 1
  by_cases hc : ((List.range seq_len).filter
      (fun t => !(attention (b * seq_len + t) == 0))).length = 0
  · rw [hc]
    simp
  · rw [if_neg hc, if_pos ?_]
    exact_mod_cast Nat.pos_of_ne_zero hc

/-- C4: masked mean pooling is insensitive to masked positions — for a 0/1
attention mask, two token-embedding tensors that agree on every row whose
mask entry is 1 (and differ arbitrarily elsewhere) pool identically. -/
theorem mean_pool_mask_insensitive (batch_len seq_len hidden : Nat)
    (emb1 emb2 : Nat → Nat → ℚ) (attention : Nat → ℤ)
    (hbin : ∀ i, attention i = 0 ∨ attention i = 1)
    (hagree : ∀ i j, attention i = 1 → emb1 i j = emb2 i j) :
    mean_pool batch_len seq_len hidden emb1 attention =
      mean_pool batch_len seq_len hidden emb2 attention := by
  rw [mean_pool_spec, mean_pool_spec]
  refine List.map_congr_left ?_
  intro b _
  refine List.map_congr_left ?_
  intro j _
  congr 1
  congr 1
  refine List.map_congr_left ?_
  intro t ht
  have ht' := (List.mem_filter.mp ht).2
  have hnz : ¬ attention (b * seq_len + t) = 0 := by simpa using ht'
  exact hagree _ j ((hbin _).resolve_left hnz)

/-- Witness for C4: one batch row, two tokens, the second masked out; the
two tensors differ only at the masked row. -/
theorem mean_pool_mask_insensitive_witness :
    mean_pool 1 2 1 (fun i _ => if i = 0 then 5 else 100)
        (fun i => if i = 0 then 1 else 0) =
      mean_pool 1 2 1 (fun i _ => if i = 0 then 5 else 7)
        (fun i => if i = 0 then 1 else 0) :=
  mean_pool_mask_insensitive 1 2 1 _ _ _
    (fun i => by by_cases h : i = 0 <;> simp [h])
    (fun i j h1 => by
      by_cases h : i = 0
      · simp [h]
      · simp [h] at h1)

/-- C7: for a 0/1 mask, each pooled row is the componentwise sum of the
hidden vectors at mask-1 positions divided by their count, with denominator
1 when the count is zero; an all-zero mask row pools to the zero vector, and
normalizing the zero vector (exact norm 0) keeps it the zero vector. -/
theorem mean_pool_masked_average (batch_len seq_len hidden : Nat)
    (embeddings : Nat → Nat → ℚ) (attention : Nat → ℤ)
    (hbin : ∀ i, attention i = 0 ∨ attention i = 1) :
    (mean_pool batch_len seq_len hidden embeddings attention =
      (List.range batch_len).map (fun b =>
        (List.range hidden).map (fun j =>
          (((List.range seq_len).filter (fun t => attention (b * seq_len + t) == 1)).map
              (fun t => embeddings (b * seq_len + t) j)).sum /
            (if ((List.range seq_len).filter
                (fun t => attention (b * seq_len + t) == 1)).length = 0 then 1
              else (((List.range seq_len).filter
                (fun t => attention (b * seq_len + t) == 1)).length : ℚ))))) ∧
    (∀ b, b < batch_len → (∀ t, t < seq_len → attention (b * seq_len + t) = 0) →
      (mean_pool batch_len seq_len hidden embeddings attention)[b]? =
        some (List.replicate hidden (0 : ℚ))) ∧
    normalize₁ 0 (List.replicate hidden (0 : ℚ)) = List.replicate hidden (0 : ℚ) := by
  have hfilter : ∀ b, (List.range seq_len).filter
      (fun t => !(attention (b * seq_len + t) == 0)) =
      (List.range seq_len).filter (fun t => attention (b * seq_len + t) == 1) := by
    intro b
    refine List.filter_congr ?_
    intro t _
    rcases hbin (b * seq_len + t) with h | h <;> simp [h]
  refine ⟨?_, ?_, ?_⟩
  · rw [mean_pool_spec]
    refine List.map_congr_left ?_
    intro b _
    rw [hfilter b]
  · intro b hb hz
    rw [mean_pool_spec, List.getElem?_map, List.getElem?_range hb]
    have hnil : (List.range seq_len).filter
        (fun t => !(attention (b * seq_len + t) == 0)) = [] := by
      rw [List.filter_eq_nil_iff]
      intro t ht
      simp [hz t (List.mem_range.mp ht)]
    simp [hnil, List.map_const', List.eq_replicate_iff]
  · simp [normalize₁, EPS]

/-- Witness for C7: one batch row whose single token is masked out pools to
the zero vector, which normalizes to the zero vector. -/
theorem mean_pool_masked_average_witness :
    (mean_pool 1 1 2 (fun _ _ => 3) (fun _ => 0))[0]? =
      some (List.replicate 2 (0 : ℚ)) ∧
    normalize₁ 0 (List.replicate 2 (0 : ℚ)) = List.replicate 2 (0 : ℚ) :=
  ⟨(mean_pool_masked_average 1 1 2 (fun _ _ => 3) (fun _ => 0)
      (fun _ => Or.inl rfl)).2.1 0 (by decide) (fun _ _ => rfl),
   (mean_pool_masked_average 1 1 2 (fun _ _ => 3) (fun _ => 0)
      (fun _ => Or.inl rfl)).2.2⟩

/-- Scaling a vector by `1/c` divides its sum of squares by `c * c`. -/
theorem sumSq_map_div (v : List ℚ) (c : ℚ) :
    sumSq (v.map (fun x => x / c)) = sumSq v / (c * c) := by
  unfold sumSq
  rw [List.map_map]
  induction v with
  | nil => simp
  | cons x xs ih =>
    simp only [List.map_cons, List.sum_cons, Function.comp] at *
    rw [ih, div_mul_div_comm, add_div]

/-- Counterexample to C3: the pooled vector `[3e-13, 4e-13]` (reachable from
`mean_pool` with a fully unmasked row) is not the zero vector, yet its exact
norm `5e-13` is below the `1e-12` floor, so normalization divides by the
floor and returns a vector of norm `1/2` — neither within tolerance of 1 nor
the all-zero vector.  The claim's "except all-zero" exception is not
exhaustive. -/
theorem normalize_tiny_vector_cex :
    mean_pool 1 1 2 (fun _ j => if j = 0 then 3 / 10 ^ 13 else 4 / 10 ^ 13) (fun _ => 1) =
      [[3 / 10 ^ 13, 4 / 10 ^ 13]] ∧
    (0 : ℚ) ≤ 5 / 10 ^ 13 ∧
    (5 / 10 ^ 13 : ℚ) * (5 / 10 ^ 13) = sumSq [3 / 10 ^ 13, 4 / 10 ^ 13] ∧
    (5 / 10 ^ 13 : ℚ) < EPS ∧
    ¬ ([3 / 10 ^ 13, (4 : ℚ) / 10 ^ 13] = [0, 0]) ∧
    normalize₁ (5 / 10 ^ 13) [3 / 10 ^ 13, 4 / 10 ^ 13] = [3 / 10, 4 / 10] ∧
    ¬ (normalize₁ (5 / 10 ^ 13) [3 / 10 ^ 13, 4 / 10 ^ 13] = [0, 0]) ∧
    sumSq (normalize₁ (5 / 10 ^ 13) [3 / 10 ^ 13, 4 / 10 ^ 13]) = 1 / 4 := by
  refine ⟨?_, by norm_num, by norm_num [sumSq], by norm_num [EPS], by norm_num, ?_, ?_, ?_⟩
  · rw [mean_pool_spec]
    norm_num [List.range_succ]
  · norm_num [normalize₁, EPS]
  · norm_num [normalize₁, EPS]
  · norm_num [normalize₁, EPS, sumSq]

/-- C3 (amended): a pooled vector of exact norm `s ≥ 1e-12` normalizes to
exact unit norm; a vector of norm below the floor (not only the zero vector)
is instead divided by `1e-12`, leaving sum of squares `sumSq v / 1e-24`; the
zero vector maps to the zero vector. -/
theorem normalize_norm_characterization (n : Nat) (v : List ℚ) (s : ℚ)
    (h0 : 0 ≤ s) (hs : s * s = sumSq v) :
    (EPS ≤ s → sumSq (normalize₁ s v) = 1) ∧
    (s < EPS → sumSq (normalize₁ s v) = sumSq v / (EPS * EPS)) ∧
    normalize₁ 0 (List.replicate n (0 : ℚ)) = List.replicate n 0 := by
  refine ⟨?_, ?_, ?_⟩
  · intro hle
    have hpos : 0 < s := lt_of_lt_of_le (by norm_num [EPS]) hle
    unfold normalize₁
    rw [max_eq_left hle, sumSq_map_div, ← hs]
    exact div_self (by positivity)
  · intro hlt
    unfold normalize₁
    rw [max_eq_right (le_of_lt hlt), sumSq_map_div]
  · simp [normalize₁, EPS]

/-- Witness for the amended C3: the unit-norm case at `v = [3/5, 4/5]`,
`s = 1`, and the zero case at `n = 2`. -/
theorem normalize_norm_characterization_witness :
    ((0 : ℚ) ≤ 1 ∧ (1 : ℚ) * 1 = sumSq [3 / 5, 4 / 5] ∧ EPS ≤ (1 : ℚ)) ∧
    sumSq (normalize₁ 1 [3 / 5, (4 : ℚ) / 5]) = 1 ∧
    normalize₁ 0 (List.replicate 2 (0 : ℚ)) = List.replicate 2 0 :=
  ⟨⟨by norm_num, by norm_num [sumSq], by norm_num [EPS]⟩,
   (normalize_norm_characterization 2 [3 / 5, 4 / 5] 1 (by norm_num)
      (by norm_num [sumSq])).1 (by norm_num [EPS]),
   (normalize_norm_characterization 2 [3 / 5, 4 / 5] 1 (by norm_num)
      (by norm_num [sumSq])).2.2⟩

/-- One unfolding of the chunk loop: emit the window `[start, start+1000) ∩ [0, L)`
and continue 800 characters later unless the window reached the end. -/
theorem chunkLoop_eq (chars : List Char) (start : Nat) (h : start < chars.length) :
    chunkLoop chars start =
      (chars.drop start).take (min (start + 1000) chars.length - start) ::
        (if start + 1000 < chars.length then chunkLoop chars (start + 800) else []) := by
  rw [chunkLoop, dif_pos h]
  simp only [CHUNK_SIZE, CHUNK_OVERLAP]
  norm_num
  split
  · rename_i he
    rw [if_neg (by omega)]
  · rename_i he
    rw [if_pos (by omega)]
    have hmin : min (start + 1000) chars.length = start + 1000 := by omega
    rw [hmin]
    have harg : start + 1000 - 200 = start + 800 := by omega
    rw [harg]

/-- `chunkCount` of a remaining length in `[1, 1000]` is 1. -/
theorem chunkCount_small (m : Nat) (h0 : m ≠ 0) (h : m ≤ 1000) : chunkCount m = 1 := by
  rw [chunkCount]
  simp only [CHUNK_SIZE, CHUNK_OVERLAP]
  rw [if_neg h0, if_pos h]

/-- Closed form of the loop from any start position: the windows advance by
800 and there are `chunkCount (remaining length)` of them. -/
theorem chunkLoop_closed_fuel (fuel : Nat) :
    ∀ (chars : List Char) (start : Nat), chars.length - start ≤ fuel →
      start < chars.length →
      chunkLoop chars start =
        (List.range (chunkCount (chars.length - start))).map
          (fun i => (chars.drop (start + 800 * i)).take 1000) := by
  induction fuel with
  | zero =>
    intro chars start hf h
    omega
  | succ fuel ih =>
    intro chars start hf h
    rw [chunkLoop_eq chars start h]
    by_cases hlt : start + 1000 < chars.length
    · rw [if_pos hlt]
      rw [ih chars (start + 800) (by omega) (by omega)]
      have hcnt : chunkCount (chars.length - start) =
          chunkCount (chars.length - (start + 800)) + 1 := by
        rw [chunkCount]
        simp only [CHUNK_SIZE, CHUNK_OVERLAP]
        rw [if_neg (by omega), if_neg (by omega)]
        have harg : chars.length - start - (1000 - 200) = chars.length - (start + 800) := by
          omega
        rw [harg]
      rw [hcnt, List.range_succ_eq_map, List.map_cons, List.map_map]
      congr 1
      · have h1 : min (start + 1000) chars.length - start = 1000 := by omega
        have h2 : start + 800 * 0 = start := by omega
        rw [h1, h2]
      · refine List.map_congr_left ?_
        intro i _
        simp only [Function.comp]
        have : start + 800 + 800 * i = start + 800 * (i + 1) := by ring
        rw [this]
    · rw [if_neg hlt]
      have h1 : chunkCount (chars.length - start) = 1 :=
        chunkCount_small _ (by omega) (by omega)
      rw [h1]
      rw [show List.range 1 = [0] from rfl]
      simp only [List.map_cons, List.map_nil]
      have hmin : min (start + 1000) chars.length = chars.length := by omega
      have hz : start + 800 * 0 = start := by omega
      rw [hmin, hz]
      rw [List.take_of_length_le (by rw [List.length_drop]),
        List.take_of_length_le (by rw [List.length_drop]; omega)]

/-- `chunkCount` in the long-text regime equals the ceiling formula
`⌈(m − 1000) / 800⌉ + 1`. -/
theorem chunkCount_formula_fuel (fuel : Nat) :
    ∀ m, m ≤ fuel → 1000 < m → chunkCount m = (m - 1000 + 799) / 800 + 1 := by
  induction fuel with
  | zero =>
    intro m hm h
    omega
  | succ fuel ih =>
    intro m hm h
    rw [chunkCount]
    simp only [CHUNK_SIZE, CHUNK_OVERLAP]
    rw [if_neg (by omega), if_neg (by omega)]
    have h800 : 1000 - 200 = 800 := by omega
    rw [h800]
    by_cases h2 : 1000 < m - 800
    · rw [ih (m - 800) (by omega) h2]
      omega
    · rw [chunkCount_small (m - 800) (by omega) (by omega)]
      omega

/-- C2: `split_into_chunks` is the reference windowing with `W = CHUNK_SIZE
= 1000`, `O = CHUNK_OVERLAP = 200` over code points: empty text gives no
chunks; `0 < L ≤ W` gives one chunk equal to the input; `L > W` gives
`⌈(L−W)/(W−O)⌉ + 1` chunks; the chunks are exactly the windows starting at
multiples of `W−O` (each truncated at the text end, so the final window ends
exactly at the text length); and consecutive chunks share exactly
`min(O, |c₁|, |c₂|)` trailing/leading characters. -/
theorem split_into_chunks_windows :
    (CHUNK_SIZE = 1000 ∧ CHUNK_OVERLAP = 200) ∧
    (split_into_chunks [] = []) ∧
    (∀ text : List Char, 0 < text.length → text.length ≤ 1000 →
      split_into_chunks text = [text]) ∧
    (∀ text : List Char, 1000 < text.length →
      (split_into_chunks text).length = (text.length - 1000 + 799) / 800 + 1) ∧
    (∀ text : List Char, 0 < text.length →
      split_into_chunks text =
        (List.range (chunkCount text.length)).map
          (fun i => (text.drop (800 * i)).take 1000)) ∧
    (∀ (text : List Char) (i : Nat) (c1 c2 : List Char),
      (split_into_chunks text)[i]? = some c1 →
      (split_into_chunks text)[i + 1]? = some c2 →
      c1.drop (c1.length - min 200 (min c1.length c2.length)) =
        c2.take (min 200 (min c1.length c2.length))) := by
  have hclosed : ∀ text : List Char, 0 < text.length →
      split_into_chunks text =
        (List.range (chunkCount text.length)).map
          (fun i => (text.drop (800 * i)).take 1000) := by
    intro text hpos
    have hne : text.isEmpty = false := by
      cases text with
      | nil => simp at hpos
      | cons a l => rfl
    rw [split_into_chunks, hne]
    simp only [Bool.false_eq_true, if_false]
    rw [chunkLoop_closed_fuel (text.length - 0) text 0 le_rfl (by omega)]
    simp only [Nat.sub_zero]
    refine List.map_congr_left ?_
    intro i _
    rw [Nat.zero_add]
  refine ⟨⟨rfl, rfl⟩, rfl, ?_, ?_, hclosed, ?_⟩
  · intro text hpos hle
    rw [hclosed text hpos, chunkCount_small text.length (by omega) hle]
    rw [show List.range 1 = [0] from rfl]
    simp only [List.map_cons, List.map_nil, Nat.mul_zero, List.drop_zero]
    rw [List.take_of_length_le (by omega)]
  · intro text hgt
    rw [hclosed text (by omega), List.length_map, List.length_range]
    exact chunkCount_formula_fuel text.length text.length le_rfl hgt
  · intro text i c1 c2 h1 h2
    rcases Nat.eq_zero_or_pos text.length with hz | hpos
    · have : text = [] := List.eq_nil_of_length_eq_zero hz
      subst this
      simp [split_into_chunks] at h1
    rw [hclosed text hpos, List.getElem?_map] at h1 h2
    have hi1 : i + 1 < chunkCount text.length := by
      by_contra hcon
      rw [List.getElem?_eq_none (by simpa using hcon)] at h2
      simp at h2
    have hi0 : i < chunkCount text.length := by omega
    rw [List.getElem?_range hi0] at h1
    rw [List.getElem?_range hi1] at h2
    simp only [Option.map_some', Option.some.injEq] at h1 h2
    subst h1
    subst h2
    have hgt : 1000 < text.length := by
      by_contra hle
      have := chunkCount_small text.length (by omega) (by omega)
      omega
    -- i + 1 ≤ ⌈(L−1000)/800⌉ gives 800·(i+1) ≤ L − 201
    have hcnt := chunkCount_formula_fuel text.length text.length le_rfl hgt
    have hile : i + 1 ≤ (text.length - 1000 + 799) / 800 := by omega
    have hmul : (i + 1) * 800 ≤ text.length - 1000 + 799 :=
      (Nat.le_div_iff_mul_le (by omega)).mp hile
    have hwin : 800 * i + 1000 < text.length := by omega
    have hlen1 : ((text.drop (800 * i)).take 1000).length = 1000 := by
      rw [List.length_take, List.length_drop]
      omega
    have hlen2 : 200 < ((text.drop (800 * (i + 1))).take 1000).length := by
      rw [List.length_take, List.length_drop]
      omega
    have hk : min 200 (min ((text.drop (800 * i)).take 1000).length
        ((text.drop (800 * (i + 1))).take 1000).length) = 200 := by
      omega
    rw [hk, hlen1]
    have h800 : (1000 : Nat) - 200 = 800 := by omega
    rw [h800, List.drop_take, List.drop_drop, List.take_take]
    have e1 : (1000 : Nat) - 800 = 200 := by omega
    have e2 : 800 * i + 800 = 800 * (i + 1) := by ring
    have e3 : min 200 1000 = 200 := by omega
    rw [e1, e2, e3]

/-- Witness for C2: a two-character text gives one chunk equal to the input,
and a 1001-character text gives the ceiling-formula chunk count, 2. -/
theorem split_into_chunks_windows_witness :
    split_into_chunks ['a', 'b'] = [['a', 'b']] ∧
    (split_into_chunks (List.replicate 1001 'a')).length =
      (1001 - 1000 + 799) / 800 + 1 ∧
    (1001 - 1000 + 799) / 800 + 1 = 2 :=
  ⟨split_into_chunks_windows.2.2.1 ['a', 'b'] (by decide) (by decide),
   by
     have h := split_into_chunks_windows.2.2.2.1 (List.replicate 1001 'a')
       (by rw [List.length_replicate]; omega)
     rw [List.length_replicate] at h
     exact h,
   by decide⟩

/- Round trip JSON → qdrant → JSON on the big-free domain, by mutual
structural induction over values, array elements, and object fields. -/
mutual
theorem roundtrip_val : ∀ (v : JsonVal), noBig v = true →
    (json_to_qdrant_value v).bind qdrant_value_to_json = Except.ok v
  | .null, _ => by
      simp only [json_to_qdrant_value]
      show qdrant_value_to_json (QdrantValue.mk (some (QdrantKind.nullValue 0))) =
        Except.ok JsonVal.null
      simp [qdrant_value_to_json]
  | .bool b, _ => by
      simp only [json_to_qdrant_value]
      show qdrant_value_to_json (QdrantValue.mk (some (QdrantKind.boolValue b))) =
        Except.ok (JsonVal.bool b)
      simp [qdrant_value_to_json]
  | .num (.int i), _ => by
      simp only [json_to_qdrant_value]
      show qdrant_value_to_json (QdrantValue.mk (some (QdrantKind.integerValue i))) =
        Except.ok (JsonVal.num (JNumber.int i))
      simp [qdrant_value_to_json]
  | .num (.float q), _ => by
      simp only [json_to_qdrant_value]
      show qdrant_value_to_json (QdrantValue.mk (some (QdrantKind.doubleValue q))) =
        Except.ok (JsonVal.num (JNumber.float q))
      simp [qdrant_value_to_json]
  | .num .big, h => by simp [noBig] at h
  | .str s, _ => by
      simp only [json_to_qdrant_value]
      show qdrant_value_to_json (QdrantValue.mk (some (QdrantKind.stringValue s))) =
        Except.ok (JsonVal.str s)
      simp [qdrant_value_to_json]
  | .arr items, h => by
      have hl := roundtrip_list items (by simpa [noBig] using h)
      cases hq : json_list_to_qdrant items with
      | error e =>
        rw [hq] at hl
        simp [Except.bind] at hl
      | ok qs =>
        rw [hq] at hl
        simp only [Except.bind] at hl
        simp only [json_to_qdrant_value, hq]
        show qdrant_value_to_json (QdrantValue.mk (some (QdrantKind.listValue qs))) =
          Except.ok (JsonVal.arr items)
        simp only [qdrant_value_to_json, hl]
        rfl
  | .obj fields, h => by
      have hl := roundtrip_fields fields (by simpa [noBig] using h)
      cases hq : json_fields_to_qdrant fields with
      | error e =>
        rw [hq] at hl
        simp [Except.bind] at hl
      | ok qs =>
        rw [hq] at hl
        simp only [Except.bind] at hl
        simp only [json_to_qdrant_value, hq]
        show qdrant_value_to_json (QdrantValue.mk (some (QdrantKind.structValue qs))) =
          Except.ok (JsonVal.obj fields)
        have hp : qdrant_payload_to_value qs = Except.ok (JsonVal.obj fields) := by
          simp only [qdrant_payload_to_value, hl]
          rfl
        simp only [qdrant_value_to_json, hp]
theorem roundtrip_list : ∀ (l : List JsonVal), noBigList l = true →
    (json_list_to_qdrant l).bind qdrant_list_to_json = Except.ok l
  | [], _ => by
      simp only [json_list_to_qdrant]
      show qdrant_list_to_json [] = Except.ok []
      simp [qdrant_list_to_json]
  | v :: rest, h => by
      have hpair := (Bool.and_eq_true _ _).mp (by simpa [noBigList] using h)
      have h0 := roundtrip_val v hpair.1
      have h2 := roundtrip_list rest hpair.2
      cases hv : json_to_qdrant_value v with
      | error e =>
        rw [hv] at h0
        simp [Except.bind] at h0
      | ok q =>
        rw [hv] at h0
        simp only [Except.bind] at h0
        cases hr : json_list_to_qdrant rest with
        | error e =>
          rw [hr] at h2
          simp [Except.bind] at h2
        | ok qs =>
          rw [hr] at h2
          simp only [Except.bind] at h2
          simp only [json_list_to_qdrant, hv, hr]
          show qdrant_list_to_json (q :: qs) = Except.ok (v :: rest)
          simp only [qdrant_list_to_json, h0, h2]
          rfl
theorem roundtrip_fields : ∀ (l : List (String × JsonVal)), noBigFields l = true →
    (json_fields_to_qdrant l).bind qdrant_fields_to_json = Except.ok l
  | [], _ => by
      simp only [json_fields_to_qdrant]
      show qdrant_fields_to_json [] = Except.ok []
      simp [qdrant_fields_to_json]
  | (k, v) :: rest, h => by
      have hpair := (Bool.and_eq_true _ _).mp (by simpa [noBigFields] using h)
      have h0 := roundtrip_val v hpair.1
      have h2 := roundtrip_fields rest hpair.2
      cases hv : json_to_qdrant_value v with
      | error e =>
        rw [hv] at h0
        simp [Except.bind] at h0
      | ok q =>
        rw [hv] at h0
        simp only [Except.bind] at h0
        cases hr : json_fields_to_qdrant rest with
        | error e =>
          rw [hr] at h2
          simp [Except.bind] at h2
        | ok qs =>
          rw [hr] at h2
          simp only [Except.bind] at h2
          simp only [json_fields_to_qdrant, hv, hr]
          show qdrant_fields_to_json ((k, q) :: qs) = Except.ok ((k, v) :: rest)
          simp only [qdrant_fields_to_json, h0, h2]
          rfl
end

/-- C6: payload/JSON conversion round-trips on the supported domain — for
every JSON value free of arbitrary-precision numbers, qdrant conversion
followed by the inverse returns the original value (integers and floats kept
distinct by construction); a number representable as neither a 64-bit
integer nor a double is a reported error; a non-object top-level payload is
a reported error. -/
theorem json_qdrant_roundtrip :
    (∀ v : JsonVal, noBig v = true →
      (json_to_qdrant_value v).bind qdrant_value_to_json = Except.ok v) ∧
    json_to_qdrant_value (JsonVal.num JNumber.big) =
      Except.error "unsupported number value" ∧
    (∀ v : JsonVal, v.isObj = false →
      qdrant_payload_from_struct v = Except.error "payload must be a JSON object") := by
  refine ⟨fun v h => roundtrip_val v h, by simp [json_to_qdrant_value], ?_⟩
  intro v hv
  cases v with
  | obj fields => simp [JsonVal.isObj] at hv
  | null => rfl
  | bool b => rfl
  | num n => rfl
  | str s => rfl
  | arr items => rfl

/-- Witness for C6: a concrete object containing an integer, a double, a
string, a boolean, null and a nested array round-trips; a top-level string
payload is rejected. -/
theorem json_qdrant_roundtrip_witness :
    noBig (JsonVal.obj [("k", JsonVal.arr [JsonVal.num (JNumber.int 3),
      JsonVal.num (JNumber.float (1 / 2)), JsonVal.str "x", JsonVal.bool true,
      JsonVal.null])]) = true ∧
    (json_to_qdrant_value (JsonVal.obj [("k", JsonVal.arr [JsonVal.num (JNumber.int 3),
        JsonVal.num (JNumber.float (1 / 2)), JsonVal.str "x", JsonVal.bool true,
        JsonVal.null])])).bind qdrant_value_to_json =
      Except.ok (JsonVal.obj [("k", JsonVal.arr [JsonVal.num (JNumber.int 3),
        JsonVal.num (JNumber.float (1 / 2)), JsonVal.str "x", JsonVal.bool true,
        JsonVal.null])]) ∧
    (JsonVal.str "s").isObj = false ∧
    qdrant_payload_from_struct (JsonVal.str "s") =
      Except.error "payload must be a JSON object" :=
  ⟨by simp [noBig, noBigList, noBigFields],
   json_qdrant_roundtrip.1 _ (by simp [noBig, noBigList, noBigFields]),
   rfl,
   json_qdrant_roundtrip.2.2 (JsonVal.str "s") rfl⟩

/- The native-to-JSON conversion never fails: every base kind converts, a
missing kind is read as null, and a non-finite double cannot occur in the
rational model (the source maps it to `Null`, not to an error). -/
mutual
theorem qdrant_value_to_json_ok : ∀ (q : QdrantValue),
    ∃ v, qdrant_value_to_json q = Except.ok v
  | .mk none => ⟨.null, by simp [qdrant_value_to_json]⟩
  | .mk (some (.nullValue n)) => ⟨.null, by simp [qdrant_value_to_json]⟩
  | .mk (some (.boolValue b)) => ⟨.bool b, by simp [qdrant_value_to_json]⟩
  | .mk (some (.integerValue i)) => ⟨.num (.int i), by simp [qdrant_value_to_json]⟩
  | .mk (some (.doubleValue d)) => ⟨.num (.float d), by simp [qdrant_value_to_json]⟩
  | .mk (some (.stringValue s)) => ⟨.str s, by simp [qdrant_value_to_json]⟩
  | .mk (some (.listValue values)) => by
      obtain ⟨vs, hvs⟩ := qdrant_list_to_json_ok values
      exact ⟨.arr vs, by simp only [qdrant_value_to_json, hvs]; rfl⟩
  | .mk (some (.structValue fields)) => by
      obtain ⟨fs, hfs⟩ := qdrant_fields_to_json_ok fields
      refine ⟨.obj fs, ?_⟩
      have hp : qdrant_payload_to_value fields = Except.ok (JsonVal.obj fs) := by
        simp only [qdrant_payload_to_value, hfs]
        rfl
      simp only [qdrant_value_to_json, hp]
theorem qdrant_list_to_json_ok : ∀ (l : List QdrantValue),
    ∃ vs, qdrant_list_to_json l = Except.ok vs
  | [] => ⟨[], by simp [qdrant_list_to_json]⟩
  | q :: rest => by
      obtain ⟨v, hv⟩ := qdrant_value_to_json_ok q
      obtain ⟨vs, hvs⟩ := qdrant_list_to_json_ok rest
      exact ⟨v :: vs, by simp only [qdrant_list_to_json, hv, hvs]; rfl⟩
theorem qdrant_fields_to_json_ok : ∀ (l : List (String × QdrantValue)),
    ∃ fs, qdrant_fields_to_json l = Except.ok fs
  | [] => ⟨[], by simp [qdrant_fields_to_json]⟩
  | (k, q) :: rest => by
      obtain ⟨v, hv⟩ := qdrant_value_to_json_ok q
      obtain ⟨fs, hfs⟩ := qdrant_fields_to_json_ok rest
      exact ⟨(k, v) :: fs, by simp only [qdrant_fields_to_json, hv, hfs]; rfl⟩
end

/-- C10: in the search-result post-processing, a point whose payload
conversion fails is replaced in place by JSON null rather than failing the
request; a point whose payload converts to `v` contributes `v`; every
element of the result is a JSON object or JSON null; one output per input
point.  Moreover the conversion in fact never fails (every payload converts
to an object), so no per-point error can reach the caller. -/
theorem search_results_payload_shape (points : List (List (String × QdrantValue))) :
    ((search_results points).length = points.length) ∧
    (∀ (i : Nat) (p : List (String × QdrantValue)) (e : String), points[i]? = some p →
      qdrant_payload_to_value p = Except.error e →
      (search_results points)[i]? = some JsonVal.null) ∧
    (∀ (i : Nat) (p : List (String × QdrantValue)) (v : JsonVal), points[i]? = some p →
      qdrant_payload_to_value p = Except.ok v →
      (search_results points)[i]? = some v) ∧
    (∀ p : List (String × QdrantValue), ∃ fields,
      qdrant_payload_to_value p = Except.ok (JsonVal.obj fields)) ∧
    (∀ r ∈ search_results points, r.isObj = true ∨ r = JsonVal.null) := by
  have htotal : ∀ p : List (String × QdrantValue), ∃ fields,
      qdrant_payload_to_value p = Except.ok (JsonVal.obj fields) := by
    intro p
    obtain ⟨fs, hfs⟩ := qdrant_fields_to_json_ok p
    refine ⟨fs, ?_⟩
    simp only [qdrant_payload_to_value, hfs]
    rfl
  refine ⟨by simp [search_results], ?_, ?_, htotal, ?_⟩
  · intro i p e hi hconv
    rw [search_results, List.getElem?_map, hi]
    simp [hconv]
  · intro i p v hi hconv
    rw [search_results, List.getElem?_map, hi]
    simp [hconv]
  · intro r hr
    rw [search_results, List.mem_map] at hr
    obtain ⟨p, _, rfl⟩ := hr
    obtain ⟨fields, hconv⟩ := htotal p
    left
    rw [hconv]
    rfl

/-- Witness for C10: a single point whose payload holds a kindless value
converts to the object `{"a": null}` and appears verbatim in the results. -/
theorem search_results_payload_shape_witness :
    qdrant_payload_to_value [("a", QdrantValue.mk none)] =
      Except.ok (JsonVal.obj [("a", JsonVal.null)]) ∧
    (search_results [[("a", QdrantValue.mk none)]])[0]? =
      some (JsonVal.obj [("a", JsonVal.null)]) :=
  have hconv : qdrant_payload_to_value [("a", QdrantValue.mk none)] =
      Except.ok (JsonVal.obj [("a", JsonVal.null)]) := by
    simp only [qdrant_payload_to_value, qdrant_fields_to_json, qdrant_value_to_json]
    rfl
  ⟨hconv,
   (search_results_payload_shape [[("a", QdrantValue.mk none)]]).2.2.1 0
     [("a", QdrantValue.mk none)] (JsonVal.obj [("a", JsonVal.null)]) rfl hconv⟩
